import Mathlib

/-!
Shallow embedding of the FoodMonitoring application (src/main.py, src/models.py)
and proofs about its behaviour.  Machine state (caches, disk) is modelled as
association lists; every definition is translated from the corresponding
Python source, with the source line numbers given in the doc comments.
-/

namespace FoodMon

/-- Secret registration code granting the regional administrator role
(src/main.py line 67). -/
def REGIONAL_CODE : String := "alu1212993"

/-- Secret registration code granting the municipal administrator role
(src/main.py line 68). -/
def MUNICIPAL_CODE : String := "rayonadmin3377%"

/-- Localized month names keyed by two-digit month code
(src/main.py lines 60-64, the MONTHS constant). -/
def MONTHS : List (String × String) :=
  [("01", "Январь"), ("02", "Февраль"), ("03", "Март"), ("04", "Апрель"),
   ("05", "Май"), ("06", "Июнь"), ("07", "Июль"), ("08", "Август"),
   ("09", "Сентябрь"), ("10", "Октябрь"), ("11", "Ноябрь"), ("12", "Декабрь")]

/-- The persisted User record (src/models.py).  The url_1c column is constant
and never read by any handler, so it is omitted from the embedding. -/
structure User where
  id : Nat
  email : String
  hashed_password : String
  role : String
  unit_name : String
  district : String
  food_type : String
deriving DecidableEq

/-- Form fields of POST /register (src/main.py lines 319-326).
secret_code is optional: absent is modelled as none. -/
structure RegisterForm where
  email : String
  password : String
  unit_name : String
  district : String
  food_type : String
  secret_code : Option String
deriving DecidableEq

/-- The two response shapes the handlers produce: a plain body returned
directly (FastAPI serves it with HTTP status 200) or a redirect with an
explicit status code. -/
inductive HttpResponse where
  | text (body : String)
  | redirect (location : String) (status : Nat)
deriving DecidableEq

/-- HTTP status code of a response: 200 for a plain body, the explicit code
for a redirect. -/
def HttpResponse.status : HttpResponse → Nat
  | .text _ => 200
  | .redirect _ s => s

/-- Modelled from the spec: auth.py is not under src/.  Section 4.3 describes
a one-way salted hash; the claims under proof depend only on the digest being
some opaque string derived from the password, which this tag models. -/
def get_password_hash (password : String) : String := "bcrypt$" ++ password

/-- POST /register handler (src/main.py lines 318-363): rejects an already
registered email with a plain message; otherwise derives the role from the
secret code, appends one new user record to the database and redirects to
/login with status 303.  Directory creation is a filesystem effect modelled
separately. -/
def register (db : List User) (newId : Nat) (form : RegisterForm) :
    List User × HttpResponse :=
  if db.any (fun u => u.email == form.email) then
    (db, .text "Пользователь с таким email уже существует")
  else
    let role :=
      if form.secret_code == some REGIONAL_CODE then "regional_admin"
      else if form.secret_code == some MUNICIPAL_CODE then "municipal_admin"
      else "user"
    let newUser : User :=
      { id := newId, email := form.email,
        hashed_password := get_password_hash form.password,
        unit_name := form.unit_name, district := form.district,
        food_type := form.food_type, role := role }
    (db ++ [newUser], .redirect "/login" 303)

/-- A sample institution record used by concrete witnesses below. -/
def sampleUser : User :=
  { id := 1, email := "a@b.ru", hashed_password := "x", role := "user",
    unit_name := "N", district := "Грозный", food_type := "Обеды" }

/-- A sample registration form with the regional secret code. -/
def sampleFormRegional : RegisterForm :=
  { email := "c@d.ru", password := "pw", unit_name := "M",
    district := "Аргун", food_type := "Обеды",
    secret_code := some "alu1212993" }

/-- A sample registration form reusing the already registered email. -/
def sampleFormDuplicate : RegisterForm :=
  { email := "a@b.ru", password := "pw", unit_name := "M",
    district := "Аргун", food_type := "Обеды", secret_code := none }

/-- One manifest entry, keyed by filename (spec section 3; written by the
upload handlers, src/main.py lines 456-462 and 556-562). -/
structure ManifestEntry where
  assigned_year : String
  assigned_month : String
  uploader_name : String
  uploader_ip : String
  upload_datetime : String
deriving DecidableEq

/-- A manifest: a mapping from filename to entry, modelled as an association
list in insertion order (a Python dict). -/
abbrev Manifest := List (String × ManifestEntry)

/-- Python dict assignment m[k] = v: replaces the value in place when the key
is present (keeping its position), appends otherwise. -/
def setEntry (m : Manifest) (k : String) (v : ManifestEntry) : Manifest :=
  match m with
  | [] => [(k, v)]
  | kv :: rest => if kv.1 = k then (k, v) :: rest else kv :: setEntry rest k v

/-- Python dict removal (del m[k] / m.pop(k, None)). -/
def popEntry (m : Manifest) (k : String) : Manifest :=
  m.filter (fun kv => kv.1 != k)

/-- Dict lookup m.get(k). -/
def getEntry (m : Manifest) (k : String) : Option ManifestEntry :=
  List.lookup k m

/-- Content of a file on disk, viewed at the JSON level: a valid manifest
serialization, raw uploaded bytes (which json.loads rejects), an empty file
(json.loads is skipped on empty content), or malformed text. -/
inductive FileContent where
  | jsonOf (m : Manifest)
  | rawBytes (data : String)
  | emptyFile
  | malformed
deriving DecidableEq

/-- Association-list update with dictionary semantics: drop any existing
binding of the key, bind it to the new value. -/
def updMap {β : Type} (l : List (String × β)) (k : String) (v : β) :
    List (String × β) :=
  (k, v) :: l.filter (fun kv => kv.1 != k)

/-- Association-list deletion. -/
def delMap {β : Type} (l : List (String × β)) (k : String) :
    List (String × β) :=
  l.filter (fun kv => kv.1 != k)

/-- In-process state: the manifest cache and file-existence cache
(src/main.py lines 27-29), the filesystem, and a counter of filesystem
touches (the read-count instrumentation the spec appeals to).  TTL expiry
and LRU eviction are not modelled: every claim under proof is about an
operation immediately following another. -/
structure SysState where
  manifestCache : List (String × Manifest)
  fileExistsCache : List (String × Bool)
  disk : List (String × FileContent)
  fsOps : Nat
deriving DecidableEq

/-- read_manifest_optimized (src/main.py lines 96-116): return the cached
mapping when present; otherwise check existence, read and parse, with the
empty mapping on absence, empty content or parse failure (the exception is
swallowed), and store the result in the cache. -/
def readManifest (s : SysState) (p : String) : Manifest × SysState :=
  match List.lookup p s.manifestCache with
  | some m => (m, s)
  | none =>
      let m : Manifest :=
        match List.lookup p s.disk with
        | none => []
        | some (.jsonOf mm) => mm
        | some .emptyFile => []
        | some .malformed => []
        | some (.rawBytes _) => []
      (m, { s with manifestCache := updMap s.manifestCache p m,
                   fsOps := s.fsOps + 1 })

/-- write_manifest_optimized (src/main.py lines 118-126): write the JSON
serialization to disk, then store a copy of the mapping in the cache. -/
def writeManifest (s : SysState) (p : String) (m : Manifest) : SysState :=
  { s with disk := updMap s.disk p (.jsonOf m),
           manifestCache := updMap s.manifestCache p m,
           fsOps := s.fsOps + 1 }

/-- save_uploaded_file_optimized (src/main.py lines 128-137): write the
bytes, then set the file-existence cache entry for the path to True. -/
def saveFile (s : SysState) (p : String) (data : String) : SysState :=
  { s with disk := updMap s.disk p (.rawBytes data),
           fileExistsCache := updMap s.fileExistsCache p true,
           fsOps := s.fsOps + 1 }

/-- delete_file_optimized (src/main.py lines 139-151): when the file exists,
unlink it and drop the file-existence cache entry; otherwise do nothing. -/
def deleteFileFs (s : SysState) (p : String) : SysState :=
  if (List.lookup p s.disk).isSome then
    { s with disk := delMap s.disk p,
             fileExistsCache := delMap s.fileExistsCache p,
             fsOps := s.fsOps + 2 }
  else
    { s with fsOps := s.fsOps + 1 }

/-- The cached existence check of GET /uid/food/filename (src/main.py lines
287-293): answer from the cache when present, otherwise consult the disk and
cache the answer. -/
def checkFileExists (s : SysState) (p : String) : Bool × SysState :=
  match List.lookup p s.fileExistsCache with
  | some b => (b, s)
  | none =>
      let b := (List.lookup p s.disk).isSome
      (b, { s with fileExistsCache := updMap s.fileExistsCache p b,
                   fsOps := s.fsOps + 1 })

/-- Relative path of an institution's food directory,
BASE_DIR / str(uid) / "food" (src/main.py line 538 and friends). -/
def foodDirPath (uid : Nat) : String := toString uid ++ "/food"

/-- Relative path of an institution's manifest sidecar. -/
def manifestPath (uid : Nat) : String := foodDirPath uid ++ "/manifest.json"

/-- Split a character list at '/' separators: the semantics of splitting a
POSIX path string on "/" (empty pieces are kept, as str.split does). -/
def splitSlashAux : List Char → List Char → List (List Char)
  | [], acc => [acc.reverse]
  | c :: cs, acc =>
      if c = '/' then acc.reverse :: splitSlashAux cs []
      else splitSlashAux cs (c :: acc)

/-- Components of a path string the way pathlib treats them: split on "/",
dropping empty components and single dots (PurePath collapses both) while
keeping ".." components. -/
def pathComps (s : String) : List String :=
  ((splitSlashAux s.data []).map (fun l => String.mk l)).filter
    (fun c => c != "" && c != ".")

/-- Whether a path string is absolute (starts with '/'). -/
def startsSlash (s : String) : Bool :=
  match s.data with
  | [] => false
  | c :: _ => c = '/'

/-- pathlib's joinpath (the / operator): an absolute right operand replaces
the whole path, otherwise its components are appended. -/
def pathJoin (base : List String) (name : String) : List String :=
  if startsSlash name then pathComps name else base ++ pathComps name

/-- Resolution of dot-dot components when the operating system walks the
path at unlink/open time: ".." drops the preceding component. -/
def resolveComps (cs : List String) : List String :=
  cs.foldl (fun acc c => if c = ".." then acc.dropLast else acc ++ [c]) []

/-- dir's components lead p's components: p lies inside dir. -/
def leadsPath : List String → List String → Bool
  | [], _ => true
  | _ :: _, [] => false
  | a :: as, b :: bs => a == b && leadsPath as bs

/-- The filesystem path GET /delete-file unlinks (src/main.py lines
570-575): the request's filename joined onto the institution's food
directory with no sanitization or containment check. -/
def deleteTargetComps (baseDir : List String) (uid : Nat)
    (filename : String) : List String :=
  pathJoin (baseDir ++ [toString uid, "food"]) filename

/-- The destination path POST /upload writes to (src/main.py lines
549-554): likewise the unsanitized filename joined onto the food
directory. -/
def uploadDestComps (baseDir : List String) (uid : Nat)
    (filename : String) : List String :=
  pathJoin (baseDir ++ [toString uid, "food"]) filename

/-- Render path components back to a relative path string. -/
def renderComps : List String → String
  | [] => ""
  | [c] => c
  | c :: rest => c ++ "/" ++ renderComps rest

/-- The filesystem key of BASE/uid/food/filename as the operating system
addresses it at open/unlink time: pathlib's join (collapsing "." and empty
components, an absolute filename replacing the base) followed by resolution
of ".." components.  Keying the modelled disk by this resolved form makes
aliases such as "./manifest.json" address the sidecar itself, as they do on
a real filesystem.  (No claim under proof involves an absolute filename, so
the lost leading slash of an absolute replacement is immaterial.) -/
def filePathKey (uid : Nat) (filename : String) : String :=
  renderComps (resolveComps (pathJoin [toString uid, "food"] filename))

/-- A file received by an upload request. -/
structure UploadedFile where
  filename : String
  content : String
deriving DecidableEq

/-- The manifest transformation performed by the upload loops (src/main.py
lines 448-462 and 549-562): skip files with empty names, upsert one entry
per named file. -/
def uploadApply (m : Manifest) (files : List UploadedFile)
    (e : ManifestEntry) : Manifest :=
  files.foldl
    (fun acc fl => if fl.filename = "" then acc else setEntry acc fl.filename e)
    m

/-- The manifest transformation of POST /delete-files (src/main.py lines
601-604): pop every submitted filename. -/
def deleteFilesApply (m : Manifest) (names : List String) : Manifest :=
  names.foldl popEntry m

/-- POST /upload handler effect on caches and disk (src/main.py lines
528-566), parameterized by the formatted Moscow-time upload timestamp. -/
def uploadHandler (s : SysState) (uid : Nat) (year month : String)
    (files : List UploadedFile) (uploader ip dtNow : String) : SysState :=
  let mp := manifestPath uid
  let rm := readManifest s mp
  let entry : ManifestEntry :=
    { assigned_year := year, assigned_month := month,
      uploader_name := uploader, uploader_ip := ip,
      upload_datetime := dtNow }
  let step := files.foldl
    (fun (acc : Manifest × SysState) fl =>
      if fl.filename = "" then acc
      else (setEntry acc.1 fl.filename entry,
            saveFile acc.2 (filePathKey uid fl.filename) fl.content))
    (rm.1, rm.2)
  writeManifest step.2 mp step.1

/-- GET /delete-file handler effect (src/main.py lines 568-585): unlink the
path obtained by joining the raw filename onto the food directory — keyed
by its resolved form, so aliases such as "./manifest.json" address the
sidecar itself — then remove the manifest entry and rewrite the manifest
only when the filename is a manifest key. -/
def deleteFileHandler (s : SysState) (uid : Nat) (filename : String) :
    SysState :=
  let fp := filePathKey uid filename
  let mp := manifestPath uid
  let s1 := deleteFileFs s fp
  let rm := readManifest s1 mp
  if (getEntry rm.1 filename).isSome then
    writeManifest rm.2 mp (popEntry rm.1 filename)
  else rm.2

/-- POST /delete-files handler effect (src/main.py lines 587-611): unlink
every submitted filename, pop each from the manifest, rewrite the
manifest. -/
def deleteFilesHandler (s : SysState) (uid : Nat) (names : List String) :
    SysState :=
  let mp := manifestPath uid
  let rm := readManifest s mp
  let step := names.foldl
    (fun (acc : Manifest × SysState) n =>
      (popEntry acc.1 n, deleteFileFs acc.2 (filePathKey uid n)))
    (rm.1, rm.2)
  writeManifest step.2 mp step.1

/-- The institutions a bulk upload writes into (src/main.py lines 425-432):
user-role institutions of the target food type, restricted to the admin's
district when the admin is municipal. -/
def bulkSchools (users : List User) (admin : User) (target_type : String) :
    List User :=
  let base := users.filter
    (fun u => u.food_type == target_type && u.role == "user")
  if admin.role = "municipal_admin" then
    base.filter (fun u => u.district == admin.district)
  else base

/-- The (institution id, filename) pairs a bulk upload saves: the nested
loop at src/main.py lines 439-462 writes every named file into every
selected school's store. -/
def bulkWrites (users : List User) (admin : User) (target_type : String)
    (files : List UploadedFile) : List (Nat × String) :=
  (bulkSchools users admin target_type).flatMap
    (fun school =>
      (files.filter (fun f => f.filename != "")).map
        (fun f => (school.id, f.filename)))

/-- POST /bulk-upload handler effect on caches and disk (src/main.py lines
409-467): the per-school body (ensure directory, read manifest, save each
named file and upsert its entry, write manifest back) is the same sequence
as the /upload handler, run once per selected school. -/
def bulkUploadHandler (s : SysState) (users : List User) (admin : User)
    (target_type year month : String) (files : List UploadedFile)
    (ip dtNow : String) : SysState :=
  (bulkSchools users admin target_type).foldl
    (fun st school =>
      uploadHandler st school.id year month files admin.unit_name ip dtNow)
    s

/-- The sidecar at path p is absent, empty, or not valid JSON. -/
def sidecarMissingOrInvalid (s : SysState) (p : String) : Prop :=
  match List.lookup p s.disk with
  | some (.jsonOf _) => False
  | _ => True

/-- The manifest a client observes for an institution: what the read
operation returns for its sidecar path. -/
def obsManifest (s : SysState) (uid : Nat) : Manifest :=
  (readManifest s (manifestPath uid)).1

/-- A fresh process against an empty filesystem: all caches cold. -/
def emptySys : SysState := ⟨[], [], [], 0⟩

/-- State after institution 5 uploads a single file a.txt. -/
def uploadedState : SysState :=
  uploadHandler emptySys 5 "2025" "05" [⟨"a.txt", "data"⟩]
    "Школа 7" "10.0.0.1" "01.06.2025 10:00"

/-- State after a subsequent GET /delete-file naming the sidecar itself:
the unlink removes manifest.json from disk while the manifest cache still
holds the old mapping. -/
def staleState : SysState := deleteFileHandler uploadedState 5 "manifest.json"

/-- A sample manifest entry for concrete tests. -/
def sampleEntry : ManifestEntry :=
  { assigned_year := "2025", assigned_month := "03",
    uploader_name := "Школа 7", uploader_ip := "10.0.0.1",
    upload_datetime := "05.03.2025 09:15" }

/-- A freshly restarted process (cold caches) over a disk that already holds
institution 5's sidecar with one entry for b.txt. -/
def coldState : SysState :=
  ⟨[], [],
   [("5/food/manifest.json", .jsonOf [("b.txt", sampleEntry)]),
    ("5/food/b.txt", .rawBytes "z")], 0⟩

/-- A second sample user: an institution in the admin's district serving a
different food type. -/
def sampleUserOtherType : User :=
  { id := 2, email := "e@f.ru", hashed_password := "y", role := "user",
    unit_name := "P", district := "Грозный", food_type := "Интернаты" }

/-- A sample municipal administrator record. -/
def sampleMunicipalAdmin : User :=
  { id := 3, email := "adm@b.ru", hashed_password := "z",
    role := "municipal_admin", unit_name := "Отдел образования",
    district := "Грозный", food_type := "Обеды" }

/-- A wall-clock timestamp (a naive Python datetime). -/
structure DateTime where
  year : Nat
  month : Nat
  day : Nat
  hour : Nat
  minute : Nat
deriving DecidableEq

/-- Two-digit zero padding, as strftime's %d %m %H %M produce. -/
def pad2 (n : Nat) : String := if n < 10 then "0" ++ toString n else toString n

/-- strftime "%d.%m.%Y %H:%M", the format the handlers write (get_msk_time
strftime, src/main.py lines 461, 500, 561) and the federal listing re-emits
(line 216).  All years of interest have four digits. -/
def formatDateTime (d : DateTime) : String :=
  pad2 d.day ++ "." ++ pad2 d.month ++ "." ++ toString d.year ++ " " ++
  pad2 d.hour ++ ":" ++ pad2 d.minute

/-- Split a character list at a separator character (str.split semantics:
empty pieces kept). -/
def splitCharAux (sep : Char) : List Char → List Char → List (List Char)
  | [], acc => [acc.reverse]
  | c :: cs, acc =>
      if c = sep then acc.reverse :: splitCharAux sep cs []
      else splitCharAux sep cs (c :: acc)

/-- Digits to a number, most significant first. -/
def digitsToNat : List Char → Nat → Nat
  | [], acc => acc
  | c :: cs, acc => digitsToNat cs (acc * 10 + (c.toNat - 48))

/-- Parse a bounded decimal field the way strptime's numeric directives do:
one to maxLen digits, value within [lo, hi]. -/
def parseNum (s : String) (lo hi maxLen : Nat) : Option Nat :=
  if s.data = [] then none
  else if maxLen < s.data.length then none
  else if !(s.data.all Char.isDigit) then none
  else
    let n := digitsToNat s.data 0
    if lo ≤ n ∧ n ≤ hi then some n else none

/-- Length of a month, as datetime's day-of-month validation uses. -/
def daysInMonth (y m : Nat) : Nat :=
  if m = 2 then (if (y % 4 = 0 ∧ y % 100 ≠ 0) ∨ y % 400 = 0 then 29 else 28)
  else if m = 4 ∨ m = 6 ∨ m = 9 ∨ m = 11 then 30
  else 31

/-- datetime.strptime(s, "%d.%m.%Y %H:%M"): day.month.year, space,
hour:minute, with range validation; None models the ValueError the source
catches (src/main.py line 206). -/
def parseDateTime (s : String) : Option DateTime :=
  match (splitCharAux ' ' s.data []).map String.mk with
  | [datePart, timePart] =>
      match (splitCharAux '.' datePart.data []).map String.mk with
      | [ds, ms, ys] =>
          match (splitCharAux ':' timePart.data []).map String.mk with
          | [hs, mins] =>
              match parseNum ds 1 31 2, parseNum ms 1 12 2,
                    parseNum ys 1 9999 4, parseNum hs 0 23 2,
                    parseNum mins 0 59 2 with
              | some d, some mo, some y, some h, some mi =>
                  if d ≤ daysInMonth y mo then some ⟨y, mo, d, h, mi⟩
                  else none
              | _, _, _, _, _ => none
          | _ => none
      | _ => none
  | _ => none

/-- MONTHS.get(code, code) (src/main.py lines 212, 506). -/
def monthName (code : String) : String :=
  match List.lookup code MONTHS with
  | some n => n
  | none => code

/-- Effective year/month of a file in the dashboard grouping (src/main.py
lines 499-503): the manifest entry's assigned pair when an entry exists,
otherwise the constants "2025" and "01". -/
def dashboardYM (manifest : Manifest) (fname : String) : String × String :=
  match getEntry manifest fname with
  | some e => (e.assigned_year, e.assigned_month)
  | none => ("2025", "01")

/-- Effective year/month of a file in the federal listing (src/main.py
lines 202-211): the entry's assigned pair when an entry exists; otherwise
str(dt.year) and dt.strftime("%m") where dt is the current time — the
intended st_mtime fallback reads .st_mtime off the un-awaited thread-pool
coroutine, so it raises AttributeError into the except arm (line 207-208)
that substitutes datetime.now(). -/
def federalYM (manifest : Manifest) (now : DateTime) (fname : String) :
    String × String :=
  match getEntry manifest fname with
  | some e => (e.assigned_year, e.assigned_month)
  | none => (toString now.year, pad2 now.month)

/-- Modelled from the spec (the claim's own rule, for comparison with the
source definitions above): effective year/month from the manifest entry when
present, otherwise derived from the file's last-modified timestamp. -/
def specEffectiveYM (manifest : Manifest) (mtime : DateTime)
    (fname : String) : String × String :=
  match getEntry manifest fname with
  | some e => (e.assigned_year, e.assigned_month)
  | none => (toString mtime.year, pad2 mtime.month)

/-- The date string displayed and used as the sort key by the federal
listing (src/main.py lines 203-216): the entry's upload_datetime reparsed
and reformatted when it parses; the formatted current time when the entry is
absent, its date string empty, or unparseable (all three land in the
except arm, see federalYM). -/
def federalDateStr (manifest : Manifest) (now : DateTime) (fname : String) :
    String :=
  match getEntry manifest fname with
  | some e =>
      if e.upload_datetime = "" then formatDateTime now
      else
        match parseDateTime e.upload_datetime with
        | some d => formatDateTime d
        | none => formatDateTime now
  | none => formatDateTime now

/-- The date string the dashboard shows (src/main.py line 500): the entry's
upload_datetime verbatim, or the formatted current Moscow time if absent. -/
def dashboardDateStr (manifest : Manifest) (now : DateTime)
    (fname : String) : String :=
  match getEntry manifest fname with
  | some e => e.upload_datetime
  | none => formatDateTime now

/-- A displayed file record: filename and date string.  The uploader, ip and
size columns do not participate in any grouping or ordering and are omitted;
the size expression of the federal stream (src/main.py line 217) reads
.st_size off the un-awaited thread-pool coroutine — a defect outside the
ordering claims modelled here. -/
abbrev FileRec := String × String

/-- Year-keyed, then month-name-keyed grouping, in insertion order (nested
Python dicts built with setdefault). -/
abbrev Grouped := List (String × List (String × List FileRec))

/-- Append a record to a keyed bucket, creating the bucket at the end on
first use (dict setdefault followed by list append). -/
def bucketAdd (l : List (String × List FileRec)) (k : String) (x : FileRec) :
    List (String × List FileRec) :=
  match l with
  | [] => [(k, [x])]
  | (k', xs) :: rest =>
      if k' = k then (k', xs ++ [x]) :: rest
      else (k', xs) :: bucketAdd rest k x

/-- Add one file record under its year and month name (the
setdefault-setdefault-append of src/main.py lines 214 and 508). -/
def groupAdd (g : Grouped) (year mon : String) (r : FileRec) : Grouped :=
  match g with
  | [] => [(year, [(mon, [r])])]
  | (y, months) :: rest =>
      if y = year then (y, bucketAdd months mon r) :: rest
      else (y, months) :: groupAdd rest year mon r

/-- The federal stream's grouping loop (src/main.py lines 195-218) as it
executes: the sidecar is skipped; for every other file the body resolves
year, month and date (lines 202-212, modelled by federalYM and
federalDateStr) and then evaluates
"size": await run_in_threadpool(f.stat).st_size (line 217), which takes
.st_size on the un-awaited thread-pool coroutine and raises AttributeError
outside any try, aborting the generator at the first such file.  The
metadata the body computed before the raise is discarded, as the raise
discards it; the loop completes — with the empty grouping — only when every
directory file is the sidecar. -/
def federalGroupLoop : List String → Except String Grouped
  | [] => .ok []
  | fname :: rest =>
      if fname = "manifest.json" then federalGroupLoop rest
      else .error "AttributeError"

/-- The dashboard handler's grouping pass (src/main.py lines 492-513),
identical in structure with its own year/month defaults and raw date
strings. -/
def dashboardGrouped (names : List String) (manifest : Manifest)
    (now : DateTime) : Grouped :=
  names.foldl
    (fun g fname =>
      if fname = "manifest.json" then g
      else
        groupAdd g (dashboardYM manifest fname).1
          (monthName (dashboardYM manifest fname).2)
          (fname, dashboardDateStr manifest now fname))
    []

/-- Code-point lexicographic comparison of character lists: exactly how
Python compares strings. -/
def charsLt : List Char → List Char → Bool
  | [], [] => false
  | [], _ :: _ => true
  | _ :: _, [] => false
  | a :: as, b :: bs => if a = b then charsLt as bs else decide (a < b)

/-- Python's s1 < s2 on strings. -/
def strLt (a b : String) : Bool := charsLt a.data b.data

/-- Python's s1 >= s2 on strings. -/
def strGe (a b : String) : Bool := !(strLt a b)

/-- Stable descending insertion by a string key: the element goes in front
of the first list element it is not below. -/
def insertDescBy {α : Type} (key : α → String) (x : α) :
    List α → List α
  | [] => [x]
  | y :: ys =>
      if strLt (key x) (key y) then y :: insertDescBy key x ys
      else x :: y :: ys

/-- sorted(…, reverse=True) with a string key: stable descending sort. -/
def sortDescBy {α : Type} (key : α → String) : List α → List α
  | [] => []
  | x :: xs => insertDescBy key x (sortDescBy key xs)

/-- The ordering pass of the federal stream (src/main.py lines 221-227):
years sorted descending as strings, month names sorted descending as
strings, files sorted descending by their date strings. -/
def sortListing (g : Grouped) : Grouped :=
  (sortDescBy Prod.fst g).map
    (fun ysec =>
      (ysec.1,
       (sortDescBy Prod.fst ysec.2).map
        (fun msec => (msec.1, sortDescBy Prod.snd msec.2))))

/-- The federal listing as emitted (src/main.py lines 168-243): after the
static header, the grouping loop; only when it completes (no file beside
the sidecar, so the grouping is empty) does the sort pass run and the
no-files message follow.  An error value is the AttributeError aborting the
stream. -/
def federalStreamRun (names : List String) : Except String Grouped :=
  match federalGroupLoop names with
  | .ok g => .ok (sortListing g)
  | .error e => .error e

/-- Chronological key of a timestamp: later instants get larger keys. -/
def dtKey (d : DateTime) : Nat :=
  (((d.year * 100 + d.month) * 100 + d.day) * 100 + d.hour) * 100 + d.minute

/-- Upload date of a displayed record: its date string parsed; records
whose date string does not parse order lowest (the entries the handlers
write always parse). -/
def recDate (r : FileRec) : DateTime :=
  (parseDateTime r.2).getD ⟨0, 0, 0, 0, 0⟩

/-- Record a is chronologically strictly older than record b. -/
def dateLt (a b : FileRec) : Bool :=
  decide (dtKey (recDate a) < dtKey (recDate b))

/-- Stable descending insertion by chronological upload date. -/
def insertDescDate (x : FileRec) : List FileRec → List FileRec
  | [] => [x]
  | y :: ys =>
      if dateLt x y then y :: insertDescDate x ys else x :: y :: ys

/-- Stable descending sort by chronological upload date ("sorted by upload
date descending", spec section 4.4). -/
def sortDescDate : List FileRec → List FileRec
  | [] => []
  | x :: xs => insertDescDate x (sortDescDate xs)

/-- Record a's upload date is not before record b's: the relation successive
files of a date-descending listing satisfy. -/
def dateGe (a b : FileRec) : Prop :=
  dtKey (recDate b) ≤ dtKey (recDate a)

/-- Modelled from the spec: templates/dashboard.html is not under src/, and
the handler (src/main.py lines 493-526) passes files_grouped to it without
any ordering.  Section 4.4 prescribes the dashboard presentation: year
groups descending (string-sorted), months by localized month name
descending, and files within a month sorted by upload date descending —
the file order chronological on the parsed upload date, per the spec's
words. -/
def dashboardRendered (names : List String) (manifest : Manifest)
    (now : DateTime) : Grouped :=
  (sortDescBy Prod.fst (dashboardGrouped names manifest now)).map
    (fun ysec =>
      (ysec.1,
       (sortDescBy Prod.fst ysec.2).map
        (fun msec => (msec.1, sortDescDate msec.2))))

/-- Key-based ge between grouped items, the relation a descending listing
satisfies. -/
def keyGe {α : Type} (key : α → String) (x y : α) : Prop :=
  strGe (key x) (key y) = true

/-- Manifest entry assigning January 2025. -/
def demoEntryJan : ManifestEntry :=
  { assigned_year := "2025", assigned_month := "01", uploader_name := "N",
    uploader_ip := "—", upload_datetime := "10.01.2025 10:00" }

/-- Manifest entry assigning December 2025. -/
def demoEntryDec : ManifestEntry :=
  { assigned_year := "2025", assigned_month := "12", uploader_name := "N",
    uploader_ip := "—", upload_datetime := "10.12.2025 10:00" }

/-- A manifest with one January-assigned and one December-assigned file. -/
def demoManifest : Manifest :=
  [("jan.pdf", demoEntryJan), ("dec.pdf", demoEntryDec)]

/-- Two February-assigned files whose upload dates straddle a month end:
a.pdf is chronologically older than b.pdf but its date string is
lexicographically larger. -/
def demoEntryJanEnd : ManifestEntry :=
  { assigned_year := "2025", assigned_month := "02", uploader_name := "N",
    uploader_ip := "—", upload_datetime := "31.01.2025 09:00" }

/-- The chronologically later of the two straddling entries. -/
def demoEntryFebStart : ManifestEntry :=
  { assigned_year := "2025", assigned_month := "02", uploader_name := "N",
    uploader_ip := "—", upload_datetime := "01.02.2025 09:00" }

/-- The two-file manifest of the straddling pair. -/
def demoManifestDates : Manifest :=
  [("a.pdf", demoEntryJanEnd), ("b.pdf", demoEntryFebStart)]

/-- A reference current time for the listing computations. -/
def demoNow : DateTime := ⟨2025, 12, 31, 12, 0⟩

/-- JSON string quoting as json.dumps(..., ensure_ascii=False) performs it
for the strings this application writes: backslash and double quote get a
backslash (control-character escapes concern characters no manifest field
contains). -/
def jsonQuote (s : String) : String :=
  "\"" ++ String.mk (s.data.foldr
    (fun c acc => if c = '\\' ∨ c = '"' then '\\' :: c :: acc else c :: acc)
    []) ++ "\""

/-- One serialized manifest entry at indent level 2 (json.dumps indent=2). -/
def dumpsEntry (e : ManifestEntry) : String :=
  "\x7b\n" ++
  "    " ++ jsonQuote "assigned_year" ++ ": " ++ jsonQuote e.assigned_year
    ++ ",\n" ++
  "    " ++ jsonQuote "assigned_month" ++ ": " ++ jsonQuote e.assigned_month
    ++ ",\n" ++
  "    " ++ jsonQuote "uploader_name" ++ ": " ++ jsonQuote e.uploader_name
    ++ ",\n" ++
  "    " ++ jsonQuote "uploader_ip" ++ ": " ++ jsonQuote e.uploader_ip
    ++ ",\n" ++
  "    " ++ jsonQuote "upload_datetime" ++ ": "
    ++ jsonQuote e.upload_datetime ++ "\n" ++
  "  \x7d"

/-- The serialized items of a manifest, comma-newline separated, in
insertion order. -/
def dumpsItems : Manifest → String
  | [] => ""
  | [kv] => "  " ++ jsonQuote kv.1 ++ ": " ++ dumpsEntry kv.2
  | kv :: rest =>
      "  " ++ jsonQuote kv.1 ++ ": " ++ dumpsEntry kv.2 ++ ",\n"
        ++ dumpsItems rest

/-- json.dumps(manifest, ensure_ascii=False, indent=2)
(src/main.py line 123). -/
def dumpsManifest (m : Manifest) : String :=
  match m with
  | [] => "\x7b\x7d"
  | _ => "\x7b\n" ++ dumpsItems m ++ "\n\x7d"

/-- The on-disk byte states write_manifest_optimized can leave behind
(src/main.py lines 122-123): aiofiles.open(path, "w") truncates the file in
place, then the serialized text is written, so an interruption leaves the
prior content untouched only if it struck before the open; afterwards the
file holds some prefix of the new text (the empty prefix right after the
truncating open).  The first element is the prior content; the rest are the
states reachable once the write began. -/
def writeManifestDiskStates (oldContent newContent : String) : List String :=
  oldContent :: (List.range (newContent.length + 1)).map
    (fun k => String.mk (newContent.data.take k))

/-- C1: a POST /register with a fresh email creates exactly one user record,
appended to the database, whose role is regional_admin exactly when the
submitted secret code is the regional constant, municipal_admin exactly when
it is the municipal constant, and user otherwise (including when the code is
absent). -/
theorem register_new_email_one_record_role
    (db : List User) (newId : Nat) (form : RegisterForm)
    (h : ∀ u ∈ db, u.email ≠ form.email) :
    (register db newId form).1.length = db.length + 1 ∧
    ∃ u : User, (register db newId form).1 = db ++ [u] ∧
      u.email = form.email ∧
      u.role = (if form.secret_code = some REGIONAL_CODE then "regional_admin"
        else if form.secret_code = some MUNICIPAL_CODE then "municipal_admin"
        else "user") := by
  have hany : db.any (fun u => u.email == form.email) = false := by
    simp only [List.any_eq_false, beq_iff_eq]
    exact h
  simp only [register, hany, Bool.false_eq_true, if_false]
  constructor
  · simp
  · refine ⟨_, rfl, rfl, ?_⟩
    simp only [beq_iff_eq]

/-- Witness for C1: registering a fresh email on a one-user database with the
regional secret code. -/
theorem register_new_email_one_record_role_witness :
    (∀ u ∈ [sampleUser], u.email ≠ sampleFormRegional.email) ∧
    (register [sampleUser] 2 sampleFormRegional).1.length = 2 := by
  refine ⟨by decide, ?_⟩
  have h := register_new_email_one_record_role [sampleUser] 2
    sampleFormRegional (by decide)
  exact h.1

/-- C7: a POST /register whose email is already registered leaves the
database unchanged and returns the plain-text failure message with HTTP
status 200, never a redirect. -/
theorem register_existing_email_no_record
    (db : List User) (newId : Nat) (form : RegisterForm)
    (h : ∃ u ∈ db, u.email = form.email) :
    (register db newId form).1 = db ∧
    (register db newId form).2 =
      .text "Пользователь с таким email уже существует" ∧
    (register db newId form).2.status = 200 ∧
    ∀ loc s, (register db newId form).2 ≠ .redirect loc s := by
  have hany : db.any (fun u => u.email == form.email) = true := by
    simp only [List.any_eq_true, beq_iff_eq]
    exact h
  have hreg : register db newId form =
      (db, .text "Пользователь с таким email уже существует") := by
    simp only [register, hany, if_true]
  rw [hreg]
  refine ⟨rfl, rfl, rfl, ?_⟩
  intro loc s hco
  exact HttpResponse.noConfusion hco

/-- Witness for C7: re-registering an email that is already present. -/
theorem register_existing_email_no_record_witness :
    (∃ u ∈ [sampleUser], u.email = sampleFormDuplicate.email) ∧
    (register [sampleUser] 2 sampleFormDuplicate).1 = [sampleUser] := by
  refine ⟨⟨sampleUser, by decide, by decide⟩, ?_⟩
  have h := register_existing_email_no_record [sampleUser] 2
    sampleFormDuplicate ⟨sampleUser, by decide, by decide⟩
  exact h.1

theorem lookup_filter_ne {β : Type} (l : List (String × β)) (k k' : String)
    (h : k' ≠ k) :
    List.lookup k' (l.filter (fun kv => kv.1 != k)) = List.lookup k' l := by
  induction l with
  | nil => rfl
  | cons kv t ih =>
      rcases kv with ⟨a, b⟩
      by_cases hk : a = k
      · subst hk
        have h2 : (k' == a) = false := by simp [h]
        simp [List.filter_cons, List.lookup, h2, ih]
      · have h1 : (a != k) = true := by simp [hk]
        by_cases hq : k' = a
        · subst hq
          simp [List.filter_cons, h1, List.lookup]
        · have h2 : (k' == a) = false := by simp [hq]
          simp [List.filter_cons, h1, List.lookup, h2, ih]

theorem lookup_updMap_self {β : Type} (l : List (String × β)) (k : String)
    (v : β) : List.lookup k (updMap l k v) = some v := by
  simp [updMap, List.lookup]

theorem lookup_updMap_ne {β : Type} (l : List (String × β)) (k k' : String)
    (v : β) (h : k' ≠ k) :
    List.lookup k' (updMap l k v) = List.lookup k' l := by
  have h2 : (k' == k) = false := by simp [h]
  simp [updMap, List.lookup, h2, lookup_filter_ne _ _ _ h]

theorem lookup_delMap_self {β : Type} (l : List (String × β)) (k : String) :
    List.lookup k (delMap l k) = none := by
  induction l with
  | nil => rfl
  | cons kv t ih =>
      rcases kv with ⟨a, b⟩
      by_cases hk : a = k
      · subst hk
        simp [delMap, List.filter_cons, List.lookup] at ih ⊢
        exact ih
      · have h1 : (a != k) = true := by simp [hk]
        have h2 : (k == a) = false := by simp [Ne.symm hk]
        simp [delMap, List.filter_cons, h1, List.lookup, h2] at ih ⊢
        exact ih

theorem lookup_delMap_ne {β : Type} (l : List (String × β)) (k k' : String)
    (h : k' ≠ k) : List.lookup k' (delMap l k) = List.lookup k' l :=
  lookup_filter_ne l k k' h

theorem getEntry_setEntry_self (m : Manifest) (k : String)
    (v : ManifestEntry) : getEntry (setEntry m k v) k = some v := by
  induction m with
  | nil => simp [setEntry, getEntry, List.lookup]
  | cons kv t ih =>
      by_cases h : kv.1 = k
      · simp [setEntry, h, getEntry, List.lookup]
      · have h2 : (k == kv.1) = false := by simp [Ne.symm h]
        simp [setEntry, h, getEntry, List.lookup, h2] at ih ⊢
        exact ih

theorem getEntry_setEntry_ne (m : Manifest) (k k' : String)
    (v : ManifestEntry) (h : k' ≠ k) :
    getEntry (setEntry m k v) k' = getEntry m k' := by
  induction m with
  | nil =>
      have h2 : (k' == k) = false := by simp [h]
      simp [setEntry, getEntry, List.lookup, h2]
  | cons kv t ih =>
      by_cases hk : kv.1 = k
      · have h2 : (k' == k) = false := by simp [h]
        have h3 : (k' == kv.1) = false := by simp [hk ▸ h]
        simp [setEntry, hk, getEntry, List.lookup, h2, h3]
      · by_cases hq : k' = kv.1
        · simp [setEntry, hk, getEntry, List.lookup, hq]
        · have h2 : (k' == kv.1) = false := by simp [hq]
          simp [setEntry, hk, getEntry, List.lookup, h2] at ih ⊢
          exact ih

theorem getEntry_popEntry_self (m : Manifest) (k : String) :
    getEntry (popEntry m k) k = none :=
  lookup_delMap_self m k

theorem getEntry_popEntry_ne (m : Manifest) (k k' : String) (h : k' ≠ k) :
    getEntry (popEntry m k) k' = getEntry m k' :=
  lookup_filter_ne m k k' h

theorem readManifest_hit (s : SysState) (p : String) (m : Manifest)
    (h : List.lookup p s.manifestCache = some m) :
    readManifest s p = (m, s) := by
  simp [readManifest, h]

theorem readManifest_cached_out (s : SysState) (p : String) :
    List.lookup p ((readManifest s p).2).manifestCache
      = some (readManifest s p).1 := by
  unfold readManifest
  cases h : List.lookup p s.manifestCache with
  | some m => simp [h]
  | none => simp [h, lookup_updMap_self]

theorem obsManifest_writeManifest (st : SysState) (uid : Nat)
    (m : Manifest) :
    obsManifest (writeManifest st (manifestPath uid) m) uid = m := by
  unfold obsManifest
  rw [readManifest_hit _ _ m (lookup_updMap_self _ _ _)]

theorem obsManifest_after_read (s : SysState) (uid : Nat) :
    obsManifest ((readManifest s (manifestPath uid)).2) uid
      = (readManifest s (manifestPath uid)).1 := by
  unfold obsManifest
  rw [readManifest_hit _ _ _ (readManifest_cached_out s (manifestPath uid))]

theorem readManifest_val_deleteFileFs_ne (s : SysState) (fp mp : String)
    (h : mp ≠ fp) :
    (readManifest (deleteFileFs s fp) mp).1 = (readManifest s mp).1 := by
  unfold readManifest deleteFileFs
  cases hd : (List.lookup fp s.disk).isSome with
  | true =>
      simp only [hd, if_true]
      cases hc : List.lookup mp s.manifestCache with
      | some m => simp [hc]
      | none => simp [hc, lookup_delMap_ne _ _ _ h]
  | false =>
      simp only [hd, Bool.false_eq_true, if_false]
      cases hc : List.lookup mp s.manifestCache with
      | some m => simp [hc]
      | none => simp [hc]

theorem upload_fold_fst (files : List UploadedFile) (e : ManifestEntry)
    (uid : Nat) (m : Manifest) (st : SysState) :
    (files.foldl
      (fun (acc : Manifest × SysState) fl =>
        if fl.filename = "" then acc
        else (setEntry acc.1 fl.filename e,
              saveFile acc.2 (filePathKey uid fl.filename) fl.content))
      (m, st)).1 = uploadApply m files e := by
  induction files generalizing m st with
  | nil => rfl
  | cons f t ih =>
      by_cases h : f.filename = ""
      · simp only [uploadApply, List.foldl_cons, h, if_true]
        exact ih m st
      · simp only [uploadApply, List.foldl_cons, h, if_false]
        exact ih _ _

theorem deleteFiles_fold_fst (names : List String) (uid : Nat)
    (m : Manifest) (st : SysState) :
    (names.foldl
      (fun (acc : Manifest × SysState) n =>
        (popEntry acc.1 n, deleteFileFs acc.2 (filePathKey uid n)))
      (m, st)).1 = deleteFilesApply m names := by
  induction names generalizing m st with
  | nil => rfl
  | cons n t ih =>
      simp only [deleteFilesApply, List.foldl_cons]
      exact ih _ _

theorem uploadApply_frame (files : List UploadedFile) (e : ManifestEntry)
    (m : Manifest) (k : String)
    (h : k ∉ files.map UploadedFile.filename) :
    getEntry (uploadApply m files e) k = getEntry m k := by
  induction files generalizing m with
  | nil => rfl
  | cons f t ih =>
      simp only [List.map_cons, List.mem_cons, not_or] at h
      by_cases hf : f.filename = ""
      · simp only [uploadApply, List.foldl_cons, hf, if_true]
        exact ih m h.2
      · simp only [uploadApply, List.foldl_cons, hf, if_false]
        rw [show (t.foldl
          (fun acc fl =>
            if fl.filename = "" then acc else setEntry acc fl.filename e)
          (setEntry m f.filename e)) = uploadApply (setEntry m f.filename e) t e from rfl]
        rw [ih (setEntry m f.filename e) h.2]
        exact getEntry_setEntry_ne m f.filename k e h.1

theorem deleteFilesApply_frame (names : List String) (m : Manifest)
    (k : String) (h : k ∉ names) :
    getEntry (deleteFilesApply m names) k = getEntry m k := by
  induction names generalizing m with
  | nil => rfl
  | cons n t ih =>
      simp only [List.mem_cons, not_or] at h
      simp only [deleteFilesApply, List.foldl_cons]
      rw [show (t.foldl popEntry (popEntry m n)) =
        deleteFilesApply (popEntry m n) t from rfl]
      rw [ih (popEntry m n) h.2]
      exact getEntry_popEntry_ne m n k h.1

/-- C5: write-through cache coherence.  A manifest read immediately after a
manifest write of the same path returns exactly the just-written mapping,
leaves the state unchanged and performs no filesystem operation; a file save
sets the file-existence cache entry for the path to true; deleting an
existing file removes the path's existence-cache entry, and the subsequent
cached existence check answers false. -/
theorem cache_write_through
    (s t u : SysState) (p q r : String) (m : Manifest) (data : String)
    (h : (List.lookup r u.disk).isSome = true) :
    readManifest (writeManifest s p m) p = (m, writeManifest s p m) ∧
    ((readManifest (writeManifest s p m) p).2).fsOps
      = (writeManifest s p m).fsOps ∧
    List.lookup q ((saveFile t q data).fileExistsCache) = some true ∧
    List.lookup r ((deleteFileFs u r).fileExistsCache) = none ∧
    (checkFileExists (deleteFileFs u r) r).1 = false := by
  have h1 : readManifest (writeManifest s p m) p = (m, writeManifest s p m) :=
    readManifest_hit _ _ _ (lookup_updMap_self _ _ _)
  have h4 : List.lookup r ((deleteFileFs u r).fileExistsCache) = none := by
    simp only [deleteFileFs, h, if_true]
    exact lookup_delMap_self _ _
  refine ⟨h1, by rw [h1], lookup_updMap_self _ _ _, h4, ?_⟩
  have h5 : List.lookup r ((deleteFileFs u r).disk) = none := by
    simp only [deleteFileFs, h, if_true]
    exact lookup_delMap_self _ _
  simp [checkFileExists, h4, h5]

/-- Witness for C5 at concrete states: a freshly saved file is reported
present by the cache, and deleting it clears the cache entry. -/
theorem cache_write_through_witness :
    ((List.lookup "1/food/a.txt"
        ((saveFile emptySys "1/food/a.txt" "d").disk)).isSome = true) ∧
    List.lookup "1/food/a.txt"
      ((deleteFileFs (saveFile emptySys "1/food/a.txt" "d")
        "1/food/a.txt").fileExistsCache) = none := by
  refine ⟨by decide, ?_⟩
  exact (cache_write_through emptySys emptySys
    (saveFile emptySys "1/food/a.txt" "d") "p" "q" "1/food/a.txt" [] "z"
    (by decide)).2.2.2.1

/-- C8 (amended): when the path has no manifest-cache entry, the manifest
read returns the empty mapping whenever the sidecar file is absent, empty,
unreadable or invalid JSON; the error is swallowed (the operation is total
and stores the empty result). -/
theorem read_manifest_swallows_errors
    (s : SysState) (p : String)
    (hc : List.lookup p s.manifestCache = none)
    (hd : sidecarMissingOrInvalid s p) :
    (readManifest s p).1 = [] := by
  unfold readManifest
  unfold sidecarMissingOrInvalid at hd
  cases h : List.lookup p s.disk with
  | none => simp [hc, h]
  | some c =>
      cases c with
      | jsonOf mm =>
          rw [h] at hd
          exact absurd hd (by simp)
      | rawBytes d => simp [hc, h]
      | emptyFile => simp [hc, h]
      | malformed => simp [hc, h]

/-- Witness for C8: reading a never-written path on a fresh process yields
the empty mapping. -/
theorem read_manifest_swallows_errors_witness :
    List.lookup "9/food/manifest.json" emptySys.manifestCache = none ∧
    sidecarMissingOrInvalid emptySys "9/food/manifest.json" ∧
    (readManifest emptySys "9/food/manifest.json").1 = [] :=
  ⟨rfl, trivial,
   read_manifest_swallows_errors emptySys "9/food/manifest.json" rfl trivial⟩

/-- Counterexample for C8 as stated: after institution 5 uploads a.txt and
then GET /delete-file is invoked with filename "manifest.json" (the unlink
removes the sidecar but the manifest cache is not invalidated), the sidecar
file is absent from disk yet the manifest read returns a non-empty
mapping. -/
theorem read_manifest_absent_nonempty_counterexample :
    List.lookup "5/food/manifest.json" staleState.disk = none ∧
    (readManifest staleState "5/food/manifest.json").1 ≠ [] := by
  decide

theorem obsManifest_uploadHandler (s : SysState) (uid : Nat)
    (year month : String) (files : List UploadedFile)
    (uploader ip dtNow : String) :
    obsManifest (uploadHandler s uid year month files uploader ip dtNow) uid
      = uploadApply (obsManifest s uid) files
          { assigned_year := year, assigned_month := month,
            uploader_name := uploader, uploader_ip := ip,
            upload_datetime := dtNow } := by
  unfold uploadHandler
  rw [obsManifest_writeManifest, upload_fold_fst]
  rfl

theorem obsManifest_deleteFilesHandler (s : SysState) (uid : Nat)
    (names : List String) :
    obsManifest (deleteFilesHandler s uid names) uid
      = deleteFilesApply (obsManifest s uid) names := by
  unfold deleteFilesHandler
  rw [obsManifest_writeManifest, deleteFiles_fold_fst]
  rfl

theorem obsManifest_deleteFileHandler (s : SysState) (uid : Nat)
    (fn : String) (h : filePathKey uid fn ≠ manifestPath uid) :
    obsManifest (deleteFileHandler s uid fn) uid
      = (if (getEntry (obsManifest s uid) fn).isSome then
          popEntry (obsManifest s uid) fn
         else obsManifest s uid) := by
  have hne : manifestPath uid ≠ filePathKey uid fn := fun e => h e.symm
  have hval : (readManifest (deleteFileFs s (filePathKey uid fn))
      (manifestPath uid)).1 = obsManifest s uid :=
    readManifest_val_deleteFileFs_ne s _ _ hne
  unfold deleteFileHandler
  simp only [hval]
  by_cases hk : (getEntry (obsManifest s uid) fn).isSome
  · simp [hk]
    rw [obsManifest_writeManifest]
  · simp [hk]
    rw [obsManifest_after_read]
    exact hval

/-- C10 (amended): frame property of the manifest-mutating handlers.  The
upload, delete-files and bulk-upload (per selected school) handlers, and the
delete-file handler for any submitted filename that does not resolve — by
pathlib join plus dot-dot resolution — to the sidecar's own path, leave the
observable manifest entry of every filename they do not name unchanged. -/
theorem manifest_mutation_frame
    (s : SysState) (uid : Nat) (year month : String)
    (files : List UploadedFile) (names : List String) (k fn : String)
    (uploader ip dtNow : String)
    (users : List User) (admin : User) (tt : String)
    (hup : k ∉ files.map UploadedFile.filename)
    (hdel : k ∉ names)
    (hfn : k ≠ fn) (hman : filePathKey uid fn ≠ manifestPath uid) :
    getEntry (obsManifest
        (uploadHandler s uid year month files uploader ip dtNow) uid) k
      = getEntry (obsManifest s uid) k ∧
    getEntry (obsManifest (deleteFileHandler s uid fn) uid) k
      = getEntry (obsManifest s uid) k ∧
    getEntry (obsManifest (deleteFilesHandler s uid names) uid) k
      = getEntry (obsManifest s uid) k ∧
    (∀ school ∈ bulkSchools users admin tt,
      getEntry (obsManifest
          (uploadHandler s school.id year month files admin.unit_name ip dtNow)
          school.id) k
        = getEntry (obsManifest s school.id) k) := by
  refine ⟨?_, ?_, ?_, ?_⟩
  · rw [obsManifest_uploadHandler]
    exact uploadApply_frame files _ _ k hup
  · rw [obsManifest_deleteFileHandler s uid fn hman]
    by_cases hk : (getEntry (obsManifest s uid) fn).isSome
    · simp only [hk, if_true]
      exact getEntry_popEntry_ne _ fn k hfn
    · simp only [hk, Bool.false_eq_true, if_false]
  · rw [obsManifest_deleteFilesHandler]
    exact deleteFilesApply_frame names _ k hdel
  · intro school _
    rw [obsManifest_uploadHandler]
    exact uploadApply_frame files _ _ k hup

/-- Witness for C10: on the cold-start state with one entry for b.txt,
uploading d.txt, deleting c.txt (singly or in bulk form) all leave the b.txt
entry intact. -/
theorem manifest_mutation_frame_witness :
    getEntry (obsManifest
        (uploadHandler coldState 5 "2025" "06" [⟨"d.txt", "x"⟩]
          "Школа 7" "10.0.0.1" "02.06.2025 11:00") 5) "b.txt"
      = getEntry (obsManifest coldState 5) "b.txt" ∧
    getEntry (obsManifest (deleteFileHandler coldState 5 "c.txt") 5) "b.txt"
      = getEntry (obsManifest coldState 5) "b.txt" := by
  have h := manifest_mutation_frame coldState 5 "2025" "06"
    [⟨"d.txt", "x"⟩] ["e.txt"] "b.txt" "c.txt"
    "Школа 7" "10.0.0.1" "02.06.2025 11:00" [sampleUser] sampleUser "Обеды"
    (by decide) (by decide) (by decide) (by decide)
  exact ⟨h.1, h.2.1⟩

/-- Counterexample for C10 as stated: GET /delete-file with the filename
"./manifest.json" — an alias pathlib collapses to the sidecar's own path —
unlinks the sidecar itself before the manifest is read, so on a cold cache
the entry of the unnamed file b.txt is lost. -/
theorem manifest_frame_violation_counterexample :
    getEntry (obsManifest coldState 5) "b.txt" = some sampleEntry ∧
    getEntry (obsManifest
        (deleteFileHandler coldState 5 "./manifest.json") 5) "b.txt"
      = none ∧
    ("b.txt" : String) ≠ "./manifest.json" ∧
    filePathKey 5 "./manifest.json" = manifestPath 5 := by
  decide

/-- C6: every file write performed by a bulk upload targets an institution
drawn from the database whose role is user and whose food type equals the
submitted target type, and, when the acting admin is municipal, whose
district equals the admin's district. -/
theorem bulk_upload_only_matching_institutions
    (users : List User) (admin : User) (tt : String)
    (files : List UploadedFile) (uid : Nat) (fn : String)
    (h : (uid, fn) ∈ bulkWrites users admin tt files) :
    ∃ u ∈ users, u.id = uid ∧ u.role = "user" ∧ u.food_type = tt ∧
      (admin.role = "municipal_admin" → u.district = admin.district) := by
  unfold bulkWrites at h
  rw [List.mem_flatMap] at h
  obtain ⟨school, hs, hw⟩ := h
  rw [List.mem_map] at hw
  obtain ⟨f, _, he⟩ := hw
  have hid : school.id = uid := congrArg Prod.fst he
  simp only [bulkSchools] at hs
  by_cases hm : admin.role = "municipal_admin"
  · rw [if_pos hm] at hs
    rw [List.mem_filter] at hs
    obtain ⟨hs1, hdis⟩ := hs
    rw [List.mem_filter] at hs1
    obtain ⟨hmem, hft⟩ := hs1
    rw [Bool.and_eq_true, beq_iff_eq, beq_iff_eq] at hft
    rw [beq_iff_eq] at hdis
    exact ⟨school, hmem, hid, hft.2, hft.1, fun _ => hdis⟩
  · rw [if_neg hm] at hs
    rw [List.mem_filter] at hs
    obtain ⟨hmem, hft⟩ := hs
    rw [Bool.and_eq_true, beq_iff_eq, beq_iff_eq] at hft
    exact ⟨school, hmem, hid, hft.2, hft.1, fun hro => absurd hro hm⟩

/-- Witness for C6: a municipal admin's bulk upload of one file over a
two-institution database writes into the matching same-district
institution. -/
theorem bulk_upload_only_matching_institutions_witness :
    ((1, "d.txt") ∈ bulkWrites [sampleUser, sampleUserOtherType]
      sampleMunicipalAdmin "Обеды" [⟨"d.txt", "x"⟩]) ∧
    ∃ u ∈ [sampleUser, sampleUserOtherType], u.id = 1 ∧ u.role = "user" ∧
      u.food_type = "Обеды" ∧
      (sampleMunicipalAdmin.role = "municipal_admin" →
        u.district = sampleMunicipalAdmin.district) := by
  refine ⟨by decide, ?_⟩
  exact bulk_upload_only_matching_institutions
    [sampleUser, sampleUserOtherType] sampleMunicipalAdmin "Обеды"
    [⟨"d.txt", "x"⟩] 1 "d.txt" (by decide)

/-- C9: the delete-file and upload handlers join the request's filename onto
the institution's food directory without sanitization: a filename holding
dot-dot components makes the unlinked or written path resolve outside
base/uid/food.  Shown at the concrete base ["srv", "app"], uid 5 and
filename "../../etc/passwd". -/
theorem filename_path_traversal_escape :
    ∃ filename : String,
      ".." ∈ pathComps filename ∧
      leadsPath (["srv", "app"] ++ [toString 5, "food"])
        (resolveComps (deleteTargetComps ["srv", "app"] 5 filename))
          = false ∧
      leadsPath (["srv", "app"] ++ [toString 5, "food"])
        (resolveComps (uploadDestComps ["srv", "app"] 5 filename))
          = false := by
  refine ⟨"../../etc/passwd", ?_⟩
  decide

theorem charsLt_asymm (as bs : List Char) (h : charsLt as bs = true) :
    charsLt bs as = false := by
  induction as generalizing bs with
  | nil =>
      cases bs with
      | nil => simp [charsLt] at h
      | cons b bs => simp [charsLt]
  | cons a as ih =>
      cases bs with
      | nil => simp [charsLt] at h
      | cons b bs =>
          by_cases hab : a = b
          · subst hab
            simp only [charsLt, if_pos rfl] at h ⊢
            exact ih bs h
          · have hba : ¬ b = a := fun e => hab e.symm
            simp only [charsLt, if_neg hab, decide_eq_true_eq] at h
            simp only [charsLt, if_neg hba, decide_eq_false_iff_not]
            exact lt_asymm h

theorem charsLt_negtrans (as bs cs : List Char)
    (h1 : charsLt as bs = false) (h2 : charsLt bs cs = false) :
    charsLt as cs = false := by
  induction as generalizing bs cs with
  | nil =>
      cases bs with
      | nil =>
          cases cs with
          | nil => rfl
          | cons c cs => simp [charsLt] at h2
      | cons b bs => simp [charsLt] at h1
  | cons a as ih =>
      cases cs with
      | nil => simp [charsLt]
      | cons c cs =>
          cases bs with
          | nil => simp [charsLt] at h2
          | cons b bs =>
              by_cases hab : a = b
              · subst hab
                simp only [charsLt, if_pos rfl] at h1
                by_cases hbc : a = c
                · subst hbc
                  simp only [charsLt, if_pos rfl] at h2 ⊢
                  exact ih bs cs h1 h2
                · simp only [charsLt, if_neg hbc] at h2 ⊢
                  exact h2
              · simp only [charsLt, if_neg hab,
                  decide_eq_false_iff_not] at h1
                by_cases hbc : b = c
                · subst hbc
                  simp only [charsLt, if_neg hab, decide_eq_false_iff_not]
                  exact h1
                · simp only [charsLt, if_neg hbc,
                    decide_eq_false_iff_not] at h2
                  by_cases hac : a = c
                  · subst hac
                    exact absurd (le_antisymm (not_lt.mp h2)
                      (not_lt.mp h1)) hab
                  · simp only [charsLt, if_neg hac,
                      decide_eq_false_iff_not]
                    intro hlt
                    exact h1 (lt_of_lt_of_le hlt (not_lt.mp h2))

theorem strGe_eq_true_iff (a b : String) :
    strGe a b = true ↔ strLt a b = false := by
  unfold strGe
  cases h : strLt a b <;> simp

theorem strGe_trans (a b c : String) (h1 : strGe a b = true)
    (h2 : strGe b c = true) : strGe a c = true := by
  rw [strGe_eq_true_iff] at h1 h2 ⊢
  exact charsLt_negtrans _ _ _ h1 h2

theorem mem_insertDescBy {α : Type} (key : α → String) (x z : α)
    (l : List α) (h : z ∈ insertDescBy key x l) : z = x ∨ z ∈ l := by
  induction l with
  | nil => simpa [insertDescBy] using h
  | cons y ys ih =>
      unfold insertDescBy at h
      by_cases hlt : strLt (key x) (key y) = true
      · rw [if_pos hlt] at h
        rcases List.mem_cons.mp h with h | h
        · exact Or.inr (List.mem_cons.mpr (Or.inl h))
        · rcases ih h with h | h
          · exact Or.inl h
          · exact Or.inr (List.mem_cons.mpr (Or.inr h))
      · rw [if_neg hlt] at h
        rcases List.mem_cons.mp h with h | h
        · exact Or.inl h
        · exact Or.inr h

theorem pairwise_insertDescBy {α : Type} (key : α → String) (x : α)
    (l : List α) (h : List.Pairwise (keyGe key) l) :
    List.Pairwise (keyGe key) (insertDescBy key x l) := by
  induction l with
  | nil => simp [insertDescBy, keyGe]
  | cons y ys ih =>
      rcases List.pairwise_cons.mp h with ⟨hy, hys⟩
      unfold insertDescBy
      by_cases hlt : strLt (key x) (key y) = true
      · rw [if_pos hlt]
        refine List.pairwise_cons.mpr ⟨?_, ih hys⟩
        intro z hz
        rcases mem_insertDescBy key x z ys hz with rfl | hz'
        · unfold keyGe
          rw [strGe_eq_true_iff]
          unfold strLt at hlt ⊢
          exact charsLt_asymm _ _ hlt
        · exact hy z hz'
      · rw [if_neg hlt]
        have hxy : keyGe key x y := by
          unfold keyGe
          rw [strGe_eq_true_iff]
          exact Bool.eq_false_iff.mpr hlt
        refine List.pairwise_cons.mpr ⟨?_, h⟩
        intro z hz
        rcases List.mem_cons.mp hz with rfl | hz'
        · exact hxy
        · exact strGe_trans _ _ _ hxy (hy z hz')

theorem pairwise_sortDescBy {α : Type} (key : α → String) (l : List α) :
    List.Pairwise (keyGe key) (sortDescBy key l) := by
  induction l with
  | nil => simp [sortDescBy]
  | cons x xs ih => exact pairwise_insertDescBy key x _ ih

theorem mem_insertDescDate (x z : FileRec) (l : List FileRec)
    (h : z ∈ insertDescDate x l) : z = x ∨ z ∈ l := by
  induction l with
  | nil => simpa [insertDescDate] using h
  | cons y ys ih =>
      unfold insertDescDate at h
      by_cases hlt : dateLt x y = true
      · rw [if_pos hlt] at h
        rcases List.mem_cons.mp h with h | h
        · exact Or.inr (List.mem_cons.mpr (Or.inl h))
        · rcases ih h with h | h
          · exact Or.inl h
          · exact Or.inr (List.mem_cons.mpr (Or.inr h))
      · rw [if_neg hlt] at h
        rcases List.mem_cons.mp h with h | h
        · exact Or.inl h
        · exact Or.inr h

theorem pairwise_insertDescDate (x : FileRec) (l : List FileRec)
    (h : List.Pairwise dateGe l) :
    List.Pairwise dateGe (insertDescDate x l) := by
  induction l with
  | nil => simp [insertDescDate, dateGe]
  | cons y ys ih =>
      rcases List.pairwise_cons.mp h with ⟨hy, hys⟩
      unfold insertDescDate
      by_cases hlt : dateLt x y = true
      · rw [if_pos hlt]
        refine List.pairwise_cons.mpr ⟨?_, ih hys⟩
        intro z hz
        rcases mem_insertDescDate x z ys hz with rfl | hz'
        · unfold dateGe
          unfold dateLt at hlt
          exact le_of_lt (of_decide_eq_true hlt)
        · exact hy z hz'
      · rw [if_neg hlt]
        have hxy : dateGe x y := by
          unfold dateGe
          unfold dateLt at hlt
          exact not_lt.mp (of_decide_eq_false (Bool.eq_false_iff.mpr hlt))
        refine List.pairwise_cons.mpr ⟨?_, h⟩
        intro z hz
        rcases List.mem_cons.mp hz with rfl | hz'
        · exact hxy
        · exact le_trans (hy z hz') hxy

theorem pairwise_sortDescDate (l : List FileRec) :
    List.Pairwise dateGe (sortDescDate l) := by
  induction l with
  | nil => simp [sortDescDate]
  | cons x xs ih => exact pairwise_insertDescDate x _ ih

theorem dashboardRendered_sorted (names : List String) (manifest : Manifest)
    (now : DateTime) :
    List.Pairwise (keyGe Prod.fst) (dashboardRendered names manifest now) ∧
    (∀ ysec ∈ dashboardRendered names manifest now,
      List.Pairwise (keyGe Prod.fst) ysec.2) ∧
    (∀ ysec ∈ dashboardRendered names manifest now, ∀ msec ∈ ysec.2,
      List.Pairwise dateGe msec.2) := by
  refine ⟨?_, ?_, ?_⟩
  · unfold dashboardRendered
    rw [List.pairwise_map]
    exact (pairwise_sortDescBy Prod.fst _).imp (fun h => h)
  · intro ysec hy
    unfold dashboardRendered at hy
    rcases List.mem_map.mp hy with ⟨y0, _, rfl⟩
    rw [List.pairwise_map]
    exact (pairwise_sortDescBy Prod.fst y0.2).imp (fun h => h)
  · intro ysec hy msec hm
    unfold dashboardRendered at hy
    rcases List.mem_map.mp hy with ⟨y0, _, rfl⟩
    rcases List.mem_map.mp hm with ⟨m0, _, rfl⟩
    exact pairwise_sortDescDate m0.2

theorem federalGroupLoop_error (names : List String)
    (h : ∃ f ∈ names, f ≠ "manifest.json") :
    federalGroupLoop names = .error "AttributeError" := by
  induction names with
  | nil => simp at h
  | cons f rest ih =>
      by_cases hf : f = "manifest.json"
      · subst hf
        unfold federalGroupLoop
        rw [if_pos rfl]
        apply ih
        rcases h with ⟨g, hg, hne⟩
        rcases List.mem_cons.mp hg with rfl | hg'
        · exact absurd rfl hne
        · exact ⟨g, hg', hne⟩
      · unfold federalGroupLoop
        rw [if_neg hf]

theorem federalGroupLoop_ok (names : List String)
    (h : ∀ f ∈ names, f = "manifest.json") :
    federalGroupLoop names = .ok [] := by
  induction names with
  | nil => rfl
  | cons f rest ih =>
      have hf : f = "manifest.json" := h f (List.mem_cons_self f rest)
      unfold federalGroupLoop
      rw [if_pos hf]
      exact ih (fun g hg => h g (List.mem_cons_of_mem f hg))

/-- C2 (amended): for any directory holding a file other than the sidecar,
the federal listing aborts with an AttributeError — the size expression
reads .st_size off the un-awaited thread-pool coroutine, outside any try —
before presenting a single year group; only a directory with no real files
reaches the sort pass, over the empty grouping.  The dashboard rendering
(spec-modelled from section 4.4, the template not being in the repository)
presents year groups in descending string order, month sections in
descending lexicographic order of the localized month names — which is not
descending calendar order — and files within a month by upload date
descending. -/
theorem federal_abort_and_dashboard_order
    (names : List String) (manifest : Manifest) (now : DateTime) :
    ((∃ f ∈ names, f ≠ "manifest.json") →
      federalStreamRun names = .error "AttributeError") ∧
    ((∀ f ∈ names, f = "manifest.json") →
      federalStreamRun names = .ok []) ∧
    List.Pairwise (keyGe Prod.fst) (dashboardRendered names manifest now) ∧
    (∀ ysec ∈ dashboardRendered names manifest now,
      List.Pairwise (keyGe Prod.fst) ysec.2) ∧
    (∀ ysec ∈ dashboardRendered names manifest now, ∀ msec ∈ ysec.2,
      List.Pairwise dateGe msec.2) := by
  have hd := dashboardRendered_sorted names manifest now
  refine ⟨?_, ?_, hd.1, hd.2.1, hd.2.2⟩
  · intro h
    unfold federalStreamRun
    rw [federalGroupLoop_error names h]
  · intro h
    unfold federalStreamRun
    rw [federalGroupLoop_ok names h]
    rfl

/-- Witness for C2: a directory with real files aborts the federal stream;
a directory holding only the sidecar yields the empty listing. -/
theorem federal_abort_and_dashboard_order_witness :
    (∃ f ∈ ["jan.pdf", "dec.pdf"], f ≠ "manifest.json") ∧
    federalStreamRun ["jan.pdf", "dec.pdf"] = .error "AttributeError" ∧
    (∀ f ∈ ["manifest.json"], f = "manifest.json") ∧
    federalStreamRun ["manifest.json"] = .ok [] := by
  refine ⟨⟨"jan.pdf", by decide, by decide⟩, ?_, by decide, ?_⟩
  · exact (federal_abort_and_dashboard_order ["jan.pdf", "dec.pdf"]
      demoManifest demoNow).1 ⟨"jan.pdf", by decide, by decide⟩
  · exact (federal_abort_and_dashboard_order ["manifest.json"]
      demoManifest demoNow).2.1 (by decide)

/-- Counterexample for C2 as stated: with one January-assigned and one
December-assigned file, the federal listing presents no year group at all —
the stream aborts with the AttributeError — and the spec-modelled dashboard
presents the January section before the December one: month names in
descending string order, not descending calendar order. -/
theorem listing_order_counterexample :
    federalStreamRun ["jan.pdf", "dec.pdf"] = .error "AttributeError" ∧
    (dashboardRendered ["jan.pdf", "dec.pdf"] demoManifest demoNow).map
      (fun ysec => (ysec.1, ysec.2.map Prod.fst))
      = [("2025", ["Январь", "Декабрь"])] ∧
    monthName "01" = "Январь" ∧ monthName "12" = "Декабрь" := by
  refine ⟨?_, by decide, by decide, by decide⟩
  unfold federalStreamRun
  rw [federalGroupLoop_error ["jan.pdf", "dec.pdf"]
    ⟨"jan.pdf", by decide, by decide⟩]

/-- C3 (amended): when a manifest entry exists, both the dashboard grouping
and the federal listing take the file's effective year and month from it;
when no entry exists, the dashboard substitutes the constants "2025" and
"01" and the federal listing the current server time — neither derives them
from the file's last-modified timestamp. -/
theorem effective_year_month_resolution
    (manifest : Manifest) (now : DateTime) (fname : String) :
    (∀ e, getEntry manifest fname = some e →
      dashboardYM manifest fname = (e.assigned_year, e.assigned_month) ∧
      federalYM manifest now fname = (e.assigned_year, e.assigned_month)) ∧
    (getEntry manifest fname = none →
      dashboardYM manifest fname = ("2025", "01") ∧
      federalYM manifest now fname = (toString now.year, pad2 now.month)) := by
  constructor
  · intro e he
    constructor <;> simp [dashboardYM, federalYM, he]
  · intro he
    constructor <;> simp [dashboardYM, federalYM, he]

/-- Witness for C3: the entry of jan.pdf is honoured; an unknown file gets
the dashboard constants and the federal current-time pair. -/
theorem effective_year_month_resolution_witness :
    getEntry demoManifest "jan.pdf" = some demoEntryJan ∧
    dashboardYM demoManifest "jan.pdf" = ("2025", "01") ∧
    getEntry ([] : Manifest) "x.pdf" = none ∧
    federalYM ([] : Manifest) demoNow "x.pdf"
      = (toString demoNow.year, pad2 demoNow.month) := by
  refine ⟨by decide, ?_, rfl, ?_⟩
  · have h := ((effective_year_month_resolution demoManifest demoNow
      "jan.pdf").1 demoEntryJan (by decide)).1
    rw [h]
    decide
  · exact ((effective_year_month_resolution ([] : Manifest) demoNow
      "x.pdf").2 rfl).2

/-- Counterexample for C3 as stated: a file with no manifest entry whose
last-modified time is March 2023 is filed by the dashboard under 2025/01
and by the federal listing under the current time (December 2025), not
under its last-modified timestamp as the claim requires. -/
theorem effective_year_month_counterexample :
    specEffectiveYM ([] : Manifest) ⟨2023, 3, 10, 8, 0⟩ "x.pdf"
      = ("2023", "03") ∧
    dashboardYM ([] : Manifest) "x.pdf" = ("2025", "01") ∧
    federalYM ([] : Manifest) demoNow "x.pdf" = ("2025", "12") ∧
    dashboardYM ([] : Manifest) "x.pdf"
      ≠ specEffectiveYM ([] : Manifest) ⟨2023, 3, 10, 8, 0⟩ "x.pdf" ∧
    federalYM ([] : Manifest) demoNow "x.pdf"
      ≠ specEffectiveYM ([] : Manifest) ⟨2023, 3, 10, 8, 0⟩ "x.pdf" := by
  decide

theorem empty_mem_writeStates (oldContent newContent : String) :
    "" ∈ writeManifestDiskStates oldContent newContent := by
  unfold writeManifestDiskStates
  apply List.mem_cons_of_mem
  exact List.mem_map.mpr ⟨0, by simp [List.mem_range], rfl⟩

theorem dumpsManifest_ne_empty (m : Manifest) : dumpsManifest m ≠ "" := by
  unfold dumpsManifest
  cases m with
  | nil => decide
  | cons kv t =>
      intro h
      have hlen := congrArg String.length h
      rw [String.length_append, String.length_append] at hlen
      have h2 : ("\x7b\n" : String).length = 2 := rfl
      have h0 : ("" : String).length = 0 := rfl
      rw [h2, h0] at hlen
      omega

/-- C4 (amended): the manifest write rewrites the sidecar wholesale but in
place, not by atomic replacement: opening with mode "w" truncates the file,
then the serialization is written, so every on-disk state reachable once
the write has begun is a (possibly empty) prefix of the new text — a
failure partway can leave a state that is neither the complete old nor the
complete new mapping. -/
theorem manifest_write_in_place_prefixes
    (oldContent newContent st : String)
    (h : st ∈ writeManifestDiskStates oldContent newContent) :
    st = oldContent ∨
      ∃ k, k ≤ newContent.length ∧
        st = String.mk (newContent.data.take k) := by
  unfold writeManifestDiskStates at h
  rcases List.mem_cons.mp h with h | h
  · exact Or.inl h
  · right
    rcases List.mem_map.mp h with ⟨k, hk, rfl⟩
    exact ⟨k, by simpa [Nat.lt_succ_iff] using List.mem_range.mp hk, rfl⟩

/-- Witness for C4: the truncated (empty) state is reachable and is indeed
a prefix of the new serialization. -/
theorem manifest_write_in_place_prefixes_witness :
    ("" ∈ writeManifestDiskStates (dumpsManifest [("a.txt", sampleEntry)])
       (dumpsManifest [("b.txt", sampleEntry)])) ∧
    ("" = dumpsManifest [("a.txt", sampleEntry)] ∨
      ∃ k, k ≤ (dumpsManifest [("b.txt", sampleEntry)]).length ∧
        "" = String.mk ((dumpsManifest [("b.txt", sampleEntry)]).data.take k)) :=
  ⟨empty_mem_writeStates _ _,
   manifest_write_in_place_prefixes _ _ _ (empty_mem_writeStates _ _)⟩

/-- Counterexample for C4 as stated: interrupting right after the
truncating open leaves an empty file, which is neither the complete old
serialization nor the complete new one. -/
theorem manifest_write_truncation_counterexample :
    "" ∈ writeManifestDiskStates (dumpsManifest [("a.txt", sampleEntry)])
      (dumpsManifest [("b.txt", sampleEntry)]) ∧
    "" ≠ dumpsManifest [("a.txt", sampleEntry)] ∧
    "" ≠ dumpsManifest [("b.txt", sampleEntry)] :=
  ⟨empty_mem_writeStates _ _,
   fun h => dumpsManifest_ne_empty _ h.symm,
   fun h => dumpsManifest_ne_empty _ h.symm⟩

end FoodMon
